import Mathlib

/-!
Verification development for the Maven Jar Analyzer repository.

Shallow embedding of the core pipeline of `maven_jar_analyzer.py` together
with the request handlers of `maven_jar_mcp_server.py` (v1) and the
class-name derivation shared with `maven_jar_remote_server.py` (v2).

External effects are made explicit:
* a subprocess outcome is a record of exit code / stdout / stderr,
* an archive is its path together with `Except` of its entry list
  (the `.error e` branch models `zipfile.ZipFile` raising with exception
  text `e`, i.e. a corrupt or unreadable archive),
* console output is returned as a list of printed lines,
* a Python exception is the `.error` branch of an `Except`.

All string manipulation is embedded on `List Char` with the exact
left-to-right semantics of the Python `str` operations used by the source.
-/

/-! ## String primitives (Python `str` operations used by the source) -/

/-- Python `s.startswith(pat)`: `s` begins with the run `pat`. -/
def startsWithChars : List Char → List Char → Bool
  | [], _ => true
  | _ :: _, [] => false
  | a :: as, b :: bs => a == b && startsWithChars as bs

/-- Python `pat in s`: `pat` occurs as a contiguous run in `s`. -/
def containsChars (pat : List Char) : List Char → Bool
  | [] => startsWithChars pat []
  | c :: cs => startsWithChars pat (c :: cs) || containsChars pat cs

/-- Substring test on strings (Python `pat in s`). -/
def strContains (s pat : String) : Bool :=
  containsChars pat.data s.data

/-- Python `s.endswith(suf)`: the last `suf.length` characters equal `suf`. -/
def strEndsWith (s suf : String) : Bool :=
  s.data.drop (s.data.length - suf.data.length) == suf.data
    && decide (suf.data.length ≤ s.data.length)

/-- Python `s.lower()` (ASCII case, which is all the source manipulates). -/
def strLower (s : String) : String :=
  ⟨s.data.map Char.toLower⟩

/-- Python `s.split('.')[-1]`: the run of characters after the last `'.'`
(the whole string when no `'.'` occurs). -/
def simpleNameOf (s : String) : String :=
  ⟨(s.data.reverse.takeWhile (fun c => c != '.')).reverse⟩

/-- Python `s.replace('/', '.')`: single-character replacement is a map. -/
def slashToDot (s : List Char) : List Char :=
  s.map (fun c => if c == '/' then '.' else c)

/-- Python `s.replace('.class', '')`: delete every occurrence of the
pattern `.class`, scanning left to right, non-overlapping. -/
def removeDotClass : List Char → List Char
  | '.' :: 'c' :: 'l' :: 'a' :: 's' :: 's' :: rest => removeDotClass rest
  | c :: rest => c :: removeDotClass rest
  | [] => []

/-- Qualified name as derived by the indexer `get_classes_from_jar`
(`maven_jar_analyzer.py` line 144): `file_info[:-6].replace('/', '.')` —
strip the 6-character suffix, then turn path separators into dots. -/
def qualifiedNameIndexer (p : String) : String :=
  ⟨slashToDot (p.data.take (p.data.length - 6))⟩

/-- Qualified name as derived by the decompile handlers
(`maven_jar_mcp_server.py` line 294 and `maven_jar_remote_server.py`
line 178): `class_file_path.replace('/', '.').replace('.class', '')`. -/
def qualifiedNameDecompiler (p : String) : String :=
  ⟨removeDotClass (slashToDot p.data)⟩

/-! ## BytecodeInspector: `analyze_class_basic` -/

/-- Big-endian `int.from_bytes` over a byte list (each element a byte value). -/
def bytesToNat (bs : List Nat) : Nat :=
  bs.foldl (fun acc b => acc * 256 + b) 0

/-- Result record of `analyze_class_basic` (the dict it returns). -/
structure BasicClassInfo where
  magic : Nat
  java_version : String
  java_compatible : String
  bytecode_size : Nat
  deriving Repr, DecidableEq

/-- The static major-version lookup table of `analyze_class_basic`. -/
def javaVersionMap (major : Nat) : Option String :=
  if major = 52 then some "8" else
  if major = 53 then some "9" else
  if major = 54 then some "10" else
  if major = 55 then some "11" else
  if major = 56 then some "12" else
  if major = 57 then some "13" else
  if major = 58 then some "14" else
  if major = 59 then some "15" else
  if major = 60 then some "16" else
  if major = 61 then some "17" else
  if major = 62 then some "18" else
  if major = 63 then some "19" else
  if major = 64 then some "20" else
  if major = 65 then some "21" else none

/-- Embedding of `analyze_class_basic` (`maven_jar_analyzer.py` lines
255-282) applied to the entry's bytes.  Returns `none` — the Python `None`,
which the spec's error taxonomy names `MalformedClassError` — when the
buffer is shorter than 8 bytes or the first four bytes are not
`0xCAFEBABE`; otherwise the minimal summary. -/
def analyze_class_basic (bytecode : List Nat) : Option BasicClassInfo :=
  if bytecode.length < 8 then none
  else
    let magic := bytesToNat (bytecode.take 4)
    if magic ≠ 0xCAFEBABE then none
    else
      let minor_version := bytesToNat ((bytecode.drop 4).take 2)
      let major_version := bytesToNat ((bytecode.drop 6).take 2)
      some {
        magic := magic
        java_version := toString major_version ++ "." ++ toString minor_version
        java_compatible :=
          (javaVersionMap major_version).getD
            ("Unknown (" ++ toString major_version ++ ")")
        bytecode_size := bytecode.length
      }

/-! ## ArchiveIndexer: `get_classes_from_jar` -/

/-- One indexed class (the dict built at `maven_jar_analyzer.py` lines
145-149). -/
structure ClassInfo where
  class_name : String
  file_path : String
  jar_path : String
  deriving Repr, DecidableEq

/-- An archive on disk: its path and the outcome of opening it.
The `.error e` branch models `zipfile.ZipFile` raising with exception text
`e` (corrupt or unreadable archive); `.ok names` is `namelist()`. -/
structure Jar where
  path : String
  entries : Except String (List String)

/-- The record the indexer creates for one `.class` entry. -/
def mkClassInfo (jar_path file_info : String) : ClassInfo :=
  { class_name := qualifiedNameIndexer file_info
    file_path := file_info
    jar_path := jar_path }

/-- The entry loop of `get_classes_from_jar` (lines 141-149): one record,
in entry order, per name ending in `.class`; every other entry is skipped. -/
def indexEntries (jar_path : String) : List String → List ClassInfo
  | [] => []
  | file_info :: rest =>
    if strEndsWith file_info ".class" then
      mkClassInfo jar_path file_info :: indexEntries jar_path rest
    else indexEntries jar_path rest

/-- Embedding of `get_classes_from_jar` (lines 131-153).  The whole body is
guarded by `try/except Exception`, so the function never raises: an archive
that cannot be opened yields the classes accumulated so far (the empty
list) plus one printed failure line; a readable archive yields its index
and prints nothing. -/
def get_classes_from_jar (jar : Jar) : List ClassInfo × List String :=
  match jar.entries with
  | .error e => ([], ["解析jar包失败 " ++ jar.path ++ ": " ++ e])
  | .ok names => (indexEntries jar.path names, [])

/-! ## ClassLocator: `find_exact_class_in_jars` -/

/-- Insertion of one match into the result dict of `find_exact_class_in_jars`
(lines 197-199): a fresh key is appended at the end (Python dict insertion
order); an existing key has the record appended to its list in place. -/
def addToResult (result : List (String × List ClassInfo)) (key : String)
    (cls : ClassInfo) : List (String × List ClassInfo) :=
  if (result.map Prod.fst).contains key then
    result.map (fun p => if p.1 == key then (p.1, p.2 ++ [cls]) else p)
  else result ++ [(key, [cls])]

/-- Inner loop of `find_exact_class_in_jars` (lines 194-199) over one
archive's classes: case-insensitive equality of the simple (last-segment)
name against the requested names, keyed by the found simple name. -/
def findExactScan (namesLower : List String) (classes : List ClassInfo)
    (result : List (String × List ClassInfo)) : List (String × List ClassInfo) :=
  classes.foldl (fun res cls =>
    let class_simple_name := simpleNameOf cls.class_name
    if namesLower.contains (strLower class_simple_name) then
      addToResult res class_simple_name cls
    else res) result

/-- Embedding of `find_exact_class_in_jars` (lines 182-201): re-indexes
every archive and scans in archive order. -/
def find_exact_class_in_jars (jar_files : List Jar) (class_names : List String) :
    List (String × List ClassInfo) :=
  let class_names_lower := class_names.map strLower
  jar_files.foldl
    (fun result jar_file =>
      findExactScan class_names_lower (get_classes_from_jar jar_file).1 result)
    []

/-! ## ManifestSynthesizer: `create_temp_pom` -/

/-- A dependency dict as passed to `create_temp_pom`; `none` models an
absent key, whose lookup `dep['key']` raises `KeyError`. -/
structure PomDependency where
  groupId : Option String
  artifactId : Option String
  version : Option String

/-- A repository dict as passed to `create_temp_pom`; `snapshots` is read
with `repo.get('snapshots', 'true')`, so its absence is not an error. -/
structure PomRepository where
  id : Option String
  name : Option String
  url : Option String
  snapshots : Option String

/-- Python `d['key']`: value when present, `KeyError` otherwise. -/
def pyKey (v : Option String) (key : String) : Except String String :=
  match v with
  | some s => Except.ok s
  | none => Except.error ("KeyError: " ++ key)

/-- The dependency block appended per dependency (lines 67-73); the
f-string reads `groupId`, `artifactId`, `version` in that order. -/
def depXml (dep : PomDependency) : Except String String := do
  let g ← pyKey dep.groupId "groupId"
  let a ← pyKey dep.artifactId "artifactId"
  let v ← pyKey dep.version "version"
  pure ("        <dependency>\n            <groupId>" ++ g
    ++ "</groupId>\n            <artifactId>" ++ a
    ++ "</artifactId>\n            <version>" ++ v
    ++ "</version>\n        </dependency>\n")

/-- The repository block appended per repository (lines 50-59). -/
def repoXml (repo : PomRepository) : Except String String := do
  let i ← pyKey repo.id "id"
  let n ← pyKey repo.name "name"
  let u ← pyKey repo.url "url"
  pure ("        <repository>\n            <id>" ++ i
    ++ "</id>\n            <name>" ++ n
    ++ "</name>\n            <url>" ++ u
    ++ "</url>\n            <snapshots>\n                <enabled>"
    ++ repo.snapshots.getD "true"
    ++ "</enabled>\n            </snapshots>\n        </repository>\n")

/-- Sequential accumulation of per-element blocks; the first `KeyError`
raised while formatting aborts the whole build, as in Python. -/
def buildSection {α : Type} (f : α → Except String String) :
    List α → Except String String
  | [] => Except.ok ""
  | x :: rest => do
    let s ← f x
    let r ← buildSection f rest
    pure (s ++ r)

/-- The fixed leading text of the generated pom (lines 33-44). -/
def pomHeader : String :=
  "<?xml version=\"1.0\" encoding=\"UTF-8\"?>\n<project>\n    <modelVersion>4.0.0</modelVersion>\n    \n    <groupId>temp.analyzer</groupId>\n    <artifactId>dependency-analyzer</artifactId>\n    <version>1.0-SNAPSHOT</version>\n    \n"

/-- The repositories block (lines 47-62); Python `if repositories:` is
false for `None` and for the empty list. -/
def repoSectionOf (repositories : Option (List PomRepository)) :
    Except String String :=
  match repositories with
  | none => Except.ok ""
  | some [] => Except.ok ""
  | some repos => do
    let body ← buildSection repoXml repos
    pure ("    <repositories>\n" ++ body ++ "    </repositories>\n    \n")

/-- Embedding of `create_temp_pom` (`maven_jar_analyzer.py` lines 25-82).
The content string is fully assembled before the single file write, so a
`KeyError` raised while formatting (`.error`) happens before any write;
on success the result is the written path and content. -/
def create_temp_pom (dependencies : List PomDependency) (output_dir : String)
    (repositories : Option (List PomRepository)) :
    Except String (String × String) := do
  let repoSection ← repoSectionOf repositories
  let depSection ← buildSection depXml dependencies
  let pom_content := pomHeader ++ repoSection ++ "    <dependencies>\n"
    ++ depSection ++ "    </dependencies>\n</project>"
  pure (output_dir ++ "/pom.xml", pom_content)

/-- The files written by `create_temp_pom`: exactly one — the pom — and
only after the content was assembled without a `KeyError`. -/
def create_temp_pom_writes (dependencies : List PomDependency)
    (output_dir : String) (repositories : Option (List PomRepository)) :
    List String :=
  match create_temp_pom dependencies output_dir repositories with
  | Except.ok pc => [pc.1]
  | Except.error _ => []

/-! ## ArtifactFetcher: `download_dependencies` -/

/-- Outcome of the external resolver subprocess (`subprocess.run` of `mvn`). -/
structure MvnOutcome where
  returncode : Int
  stdout : String
  stderr : String

/-- The error raised on a non-zero resolver exit (the spec's
`ResolutionError`); its `msg` is the Python exception payload `str(e)`. -/
structure ResolutionError where
  msg : String
  deriving Repr, DecidableEq

/-- Embedding of `download_dependencies` (`maven_jar_analyzer.py` lines
84-129).  `dirFiles` are the files found in the output directory after the
subprocess ran.  First component: the raised `ResolutionError` on non-zero
exit, else the `.jar`-suffixed files.  Second component: the lines printed
to the console — on failure the captured stderr is printed, while the
exception payload is the fixed string `Maven命令执行失败`. -/
def download_dependencies (mvn : MvnOutcome) (dirFiles : List Jar) :
    Except ResolutionError (List Jar) × List String :=
  if mvn.returncode ≠ 0 then
    (Except.error { msg := "Maven命令执行失败" },
     ["Maven命令执行失败:\n" ++ mvn.stderr])
  else
    (Except.ok (dirFiles.filter (fun j => strEndsWith j.path ".jar")),
     [mvn.stdout])

/-! ## Decompiler: `decompile_class` -/

/-- Outcome of the external `javap` subprocess. -/
structure JavapResult where
  returncode : Int
  stdout : String
  stderr : String

/-- Embedding of `decompile_class` (`maven_jar_analyzer.py` lines 338-367).
The argument is the outcome of extracting the entry and running `javap`:
`.error e` models any exception raised inside the body (caught by the
enclosing `try`), `.ok r` the completed subprocess.  The function is total
— it always returns a string and never raises to its caller. -/
def decompile_class (outcome : Except String JavapResult) : String :=
  match outcome with
  | Except.error e => "反编译出错: " ++ e
  | Except.ok r =>
    if r.returncode == 0 then r.stdout else "反编译失败: " ++ r.stderr

/-! ## PipelineFacade: the v1 MCP handlers -/

/-- Observable pipeline steps, recorded in execution order. -/
inductive Stage where
  | synthesize
  | fetch
  | indexJar (path : String)
  | locate
  | decompileCls (name : String)
  deriving Repr, DecidableEq

/-- The environment a request runs against: its inputs plus the behavior
of the external world (resolver outcome, directory contents, `javap`
outcome per `(jar_path, file_path)`). -/
structure PipelineEnv where
  dependencies : List PomDependency
  repositories : Option (List PomRepository)
  target_classes : List String
  work_dir : String
  mvn : MvnOutcome
  dirFiles : List Jar
  javap : String → String → Except String JavapResult

/-- The successful payload of `handle_analyze_dependency` (lines 250-269). -/
structure AnalyzeResult where
  found_classes : List (String × List ClassInfo)
  jar_files : List String
  work_dir : String
  missing_classes : List String

/-- The summary's `missing_classes` (line 267): requested names not among
the result keys, by case-sensitive membership. -/
def missingClasses (target_classes : List String)
    (found : List (String × List ClassInfo)) : List String :=
  target_classes.filter (fun cls => !((found.map Prod.fst).contains cls))

/-- Embedding of `handle_analyze_dependency` (`maven_jar_mcp_server.py`
lines 224-274).  A `KeyError` from pom synthesis or the `ResolutionError`
from the fetch propagates (`.error`), aborting before any later stage; on
success the located classes and summary are returned.  The second
component is the trace of performed stages. -/
def handle_analyze_dependency (env : PipelineEnv) :
    Except String AnalyzeResult × List Stage :=
  match create_temp_pom env.dependencies env.work_dir env.repositories with
  | Except.error e => (Except.error e, [Stage.synthesize])
  | Except.ok _ =>
    match (download_dependencies env.mvn env.dirFiles).1 with
    | Except.error e => (Except.error e.msg, [Stage.synthesize, Stage.fetch])
    | Except.ok jar_files =>
      let found := find_exact_class_in_jars jar_files env.target_classes
      (Except.ok {
          found_classes := found
          jar_files := jar_files.map Jar.path
          work_dir := env.work_dir
          missing_classes := missingClasses env.target_classes found },
       [Stage.synthesize, Stage.fetch]
         ++ jar_files.map (fun j => Stage.indexJar j.path) ++ [Stage.locate])

/-- The successful payload of `handle_find_and_decompile`: the analyze
payload plus `decompiled_classes`. -/
structure FindDecompileResult where
  analyze : AnalyzeResult
  decompiled_classes : List (String × String)

/-- The decompile loop of `handle_find_and_decompile` (lines 322-332): for
every found key with a non-empty list, the representative is element 0 of
that list (`class_list[0]`), and its decompiled text — success output or
inline failure string — is recorded; no outcome aborts the loop. -/
def decompileFound (javap : String → String → Except String JavapResult) :
    List (String × List ClassInfo) → List (String × String)
  | [] => []
  | (_, []) :: rest => decompileFound javap rest
  | (class_name, cls :: _) :: rest =>
    (class_name, decompile_class (javap cls.jar_path cls.file_path))
      :: decompileFound javap rest

/-- Embedding of `handle_find_and_decompile` (`maven_jar_mcp_server.py`
lines 309-343): run the analyze stage; a failure there propagates (no
decompilation is attempted); on success every located representative is
decompiled independently. -/
def handle_find_and_decompile (env : PipelineEnv) :
    Except String FindDecompileResult × List Stage :=
  match handle_analyze_dependency env with
  | (Except.error e, tr) => (Except.error e, tr)
  | (Except.ok res, tr) =>
    let decompiled := decompileFound env.javap res.found_classes
    (Except.ok { analyze := res, decompiled_classes := decompiled },
     tr ++ decompiled.map (fun p => Stage.decompileCls p.1))

/-! ## Concrete environments used by the witnesses -/

/-- A readable archive holding two classes. -/
def jarOK : Jar :=
  ⟨"/w/dependencies/lib.jar", Except.ok ["org/example/Foo.class", "org/example/Bar.class"]⟩

/-- A request whose resolution succeeds and whose single located
representative fails to decompile (`javap` exits 1). -/
def envOK : PipelineEnv where
  dependencies := [{ groupId := some "org.example", artifactId := some "lib",
                     version := some "1.0" }]
  repositories := none
  target_classes := ["Foo"]
  work_dir := "/w"
  mvn := { returncode := 0, stdout := "BUILD SUCCESS", stderr := "" }
  dirFiles := [jarOK]
  javap := fun _ _ =>
    Except.ok { returncode := 1, stdout := "", stderr := "error: cannot load class" }

/-- The same request with the resolver subprocess exiting 1. -/
def envFail : PipelineEnv :=
  { envOK with mvn := { returncode := 1, stdout := "", stderr := "BUILD FAILURE" } }

/-! ## Theorems -/

/-- Claim C2: a buffer shorter than 8 bytes, or whose first four bytes are
not the magic `0xCAFEBABE`, makes `analyze_class_basic` yield the
malformed-class failure (`none`, the Python `None`, the spec's
`MalformedClassError`), never a bytecode summary. -/
theorem analyze_class_basic_malformed (bytecode : List Nat)
    (h : bytecode.length < 8 ∨ bytesToNat (bytecode.take 4) ≠ 0xCAFEBABE) :
    analyze_class_basic bytecode = none := by
  unfold analyze_class_basic
  rcases h with h | h
  · simp [h]
  · by_cases hlen : bytecode.length < 8
    · simp [hlen]
    · simp [hlen, h]

/-- Witness for C2 at the concrete 3-byte buffer `[0xCA, 0xFE, 0xBA]`. -/
theorem analyze_class_basic_malformed_witness :
    analyze_class_basic [0xCA, 0xFE, 0xBA] = none :=
  analyze_class_basic_malformed [0xCA, 0xFE, 0xBA] (Or.inl (by decide))

theorem indexEntries_eq_filter_map (jar_path : String) (names : List String) :
    indexEntries jar_path names =
      (names.filter (fun e => strEndsWith e ".class")).map (mkClassInfo jar_path) := by
  induction names with
  | nil => rfl
  | cons n rest ih =>
    by_cases h : strEndsWith n ".class" = true
    · simp [indexEntries, List.filter_cons, h, ih]
    · simp [indexEntries, List.filter_cons, h, ih]

/-- Claim C7: on a readable archive the indexer produces exactly one record
per entry whose name ends in `.class` (in entry order), no record for any
other entry, and each record's qualified name is the entry path with the
6-character suffix removed and `/` replaced by `.` (`qualifiedNameIndexer`). -/
theorem get_classes_from_jar_spec (jar : Jar) (names : List String)
    (h : jar.entries = Except.ok names) :
    (get_classes_from_jar jar).1 =
      (names.filter (fun e => strEndsWith e ".class")).map (mkClassInfo jar.path) ∧
    ∀ r ∈ (get_classes_from_jar jar).1,
      r.class_name = qualifiedNameIndexer r.file_path ∧ r.jar_path = jar.path := by
  constructor
  · simp [get_classes_from_jar, h, indexEntries_eq_filter_map]
  · intro r hr
    simp only [get_classes_from_jar, h, indexEntries_eq_filter_map] at hr
    obtain ⟨e, _, rfl⟩ := List.mem_map.mp hr
    exact ⟨rfl, rfl⟩

/-- Witness for C7: an archive with one `.class` entry, one nested `.class`
entry, and one non-class entry. -/
theorem get_classes_from_jar_spec_witness :
    (get_classes_from_jar
        ⟨"/tmp/lib.jar",
         Except.ok ["org/example/Foo.class", "META-INF/MANIFEST.MF", "a/B.class"]⟩).1 =
      [mkClassInfo "/tmp/lib.jar" "org/example/Foo.class",
       mkClassInfo "/tmp/lib.jar" "a/B.class"] := by
  have h := get_classes_from_jar_spec
    ⟨"/tmp/lib.jar",
     Except.ok ["org/example/Foo.class", "META-INF/MANIFEST.MF", "a/B.class"]⟩
    ["org/example/Foo.class", "META-INF/MANIFEST.MF", "a/B.class"] rfl
  rw [h.1]
  decide

/-- Claim C8: an archive that cannot be opened is contained at the artifact
level: the indexer yields no records and one printed diagnostic line
instead of raising, so a surrounding exact-name lookup over many archives
simply skips it (the request is not aborted); and inside a readable archive
an entry that is not a `.class` entry is skipped without any failure. -/
theorem get_classes_from_jar_recoverable (jar : Jar) (e : String)
    (h : jar.entries = Except.error e) :
    get_classes_from_jar jar = ([], ["解析jar包失败 " ++ jar.path ++ ": " ++ e]) ∧
    (∀ js1 js2 names,
      find_exact_class_in_jars (js1 ++ jar :: js2) names =
        find_exact_class_in_jars (js1 ++ js2) names) ∧
    (∀ path n1 bad n2, strEndsWith bad ".class" = false →
      indexEntries path (n1 ++ bad :: n2) = indexEntries path (n1 ++ n2)) := by
  refine ⟨by simp [get_classes_from_jar, h], ?_, ?_⟩
  · intro js1 js2 names
    simp only [find_exact_class_in_jars, List.foldl_append, List.foldl_cons]
    have hskip : (get_classes_from_jar jar).1 = [] := by
      simp [get_classes_from_jar, h]
    rw [hskip]
    rfl
  · intro path n1 bad n2 hbad
    induction n1 with
    | nil => simp [indexEntries, hbad]
    | cons n rest ih => simp [indexEntries, ih]

/-- Witness for C8: a corrupt archive between two readable ones is skipped. -/
theorem get_classes_from_jar_recoverable_witness :
    get_classes_from_jar ⟨"/tmp/bad.jar", Except.error "File is not a zip file"⟩ =
      ([], ["解析jar包失败 /tmp/bad.jar: File is not a zip file"]) ∧
    find_exact_class_in_jars
        [⟨"/tmp/a.jar", Except.ok ["p/Foo.class"]⟩,
         ⟨"/tmp/bad.jar", Except.error "File is not a zip file"⟩,
         ⟨"/tmp/b.jar", Except.ok ["q/Bar.class"]⟩] ["Foo", "Bar"] =
      find_exact_class_in_jars
        [⟨"/tmp/a.jar", Except.ok ["p/Foo.class"]⟩,
         ⟨"/tmp/b.jar", Except.ok ["q/Bar.class"]⟩]
        ["Foo", "Bar"] ∧
    indexEntries "/tmp/a.jar" ["p/Foo.class", "module-info.txt", "q/Bar.class"] =
      indexEntries "/tmp/a.jar" ["p/Foo.class", "q/Bar.class"] := by
  have h := get_classes_from_jar_recoverable
    ⟨"/tmp/bad.jar", Except.error "File is not a zip file"⟩ "File is not a zip file" rfl
  exact ⟨h.1,
    h.2.1 [⟨"/tmp/a.jar", Except.ok ["p/Foo.class"]⟩]
      [⟨"/tmp/b.jar", Except.ok ["q/Bar.class"]⟩] ["Foo", "Bar"],
    h.2.2 "/tmp/a.jar" ["p/Foo.class"] "module-info.txt" ["q/Bar.class"] (by decide)⟩

theorem startsWithChars_self : ∀ l : List Char, startsWithChars l l = true
  | [] => rfl
  | c :: cs => by simp [startsWithChars, startsWithChars_self cs]

theorem containsChars_append_self (pat x : List Char) :
    containsChars pat (x ++ pat) = true := by
  induction x with
  | nil =>
    cases pat with
    | nil => rfl
    | cons c cs => simp [containsChars, startsWithChars_self]
  | cons a x' ih => simp [containsChars, ih]

theorem strContains_append_right (a b : String) : strContains (a ++ b) b = true := by
  have hdata : (a ++ b).data = a.data ++ b.data := String.data_append a b
  simp only [strContains, hdata]
  exact containsChars_append_self b.data a.data

/-- Claim C5: when the disassembler subprocess exits non-zero,
`decompile_class` returns the inline failure string containing the captured
stderr; and the exceptional path likewise returns a string — the function
is total, so it never raises to its caller. -/
theorem decompile_class_failure (r : JavapResult) (h : r.returncode ≠ 0) :
    decompile_class (Except.ok r) = "反编译失败: " ++ r.stderr ∧
    strContains ("反编译失败: " ++ r.stderr) r.stderr = true ∧
    ∀ exc, decompile_class (Except.error exc) = "反编译出错: " ++ exc := by
  refine ⟨?_, strContains_append_right _ _, fun exc => rfl⟩
  simp [decompile_class, h]

/-- Witness for C5 at a `javap` outcome with exit code 1 and stderr `diag`. -/
theorem decompile_class_failure_witness :
    decompile_class (Except.ok { returncode := 1, stdout := "", stderr := "diag" }) =
      "反编译失败: " ++ "diag" ∧
    strContains ("反编译失败: " ++ "diag") "diag" = true :=
  ⟨(decompile_class_failure ⟨1, "", "diag"⟩ (by decide)).1,
   (decompile_class_failure ⟨1, "", "diag"⟩ (by decide)).2.1⟩

/-- Counterexample to claim C3 as stated: on resolver exit status 1 with
captured diagnostic output `diag-xyz`, the raised error's payload is the
fixed string `Maven命令执行失败`, which does not contain the diagnostic
output — the payload does not carry it. -/
theorem download_dependencies_payload_counterexample :
    (download_dependencies { returncode := 1, stdout := "", stderr := "diag-xyz" } []).1 =
      Except.error { msg := "Maven命令执行失败" } ∧
    strContains "Maven命令执行失败" "diag-xyz" = false := by
  exact ⟨rfl, by decide⟩

/-- Claim C3, amended: on non-zero resolver exit, `download_dependencies`
raises a `ResolutionError` whose payload is the fixed string
`Maven命令执行失败`; the captured diagnostic output is printed to the
console instead of being carried in the payload; and the surrounding
analyze operation aborts with an error, performing no archive-indexing
call after the failure. -/
theorem download_dependencies_resolution_error (mvn : MvnOutcome) (dirFiles : List Jar)
    (h : mvn.returncode ≠ 0) :
    (download_dependencies mvn dirFiles).1 =
      Except.error { msg := "Maven命令执行失败" } ∧
    (download_dependencies mvn dirFiles).2 = ["Maven命令执行失败:\n" ++ mvn.stderr] ∧
    strContains ("Maven命令执行失败:\n" ++ mvn.stderr) mvn.stderr = true ∧
    (∀ env : PipelineEnv, env.mvn.returncode ≠ 0 →
      (∃ e, (handle_analyze_dependency env).1 = Except.error e) ∧
      ∀ p, Stage.indexJar p ∉ (handle_analyze_dependency env).2) := by
  refine ⟨by simp [download_dependencies, h], by simp [download_dependencies, h],
    strContains_append_right _ _, ?_⟩
  intro env henv
  cases hpom : create_temp_pom env.dependencies env.work_dir env.repositories with
  | error e =>
    refine ⟨⟨e, ?_⟩, ?_⟩ <;> simp [handle_analyze_dependency, hpom]
  | ok pc =>
    refine ⟨⟨"Maven命令执行失败", ?_⟩, ?_⟩ <;>
      simp [handle_analyze_dependency, hpom, download_dependencies, henv]

/-- Witness for C3's amended theorem at exit status 1, stderr `diag`, and
the concrete failing environment `envFail`. -/
theorem download_dependencies_resolution_error_witness :
    (download_dependencies { returncode := 1, stdout := "", stderr := "diag" } []).1 =
      Except.error { msg := "Maven命令执行失败" } ∧
    (∃ e, (handle_analyze_dependency envFail).1 = Except.error e) ∧
    (∀ p, Stage.indexJar p ∉ (handle_analyze_dependency envFail).2) := by
  have h := download_dependencies_resolution_error ⟨1, "", "diag"⟩ [] (by decide)
  have h2 := h.2.2.2 envFail (by decide)
  exact ⟨h.1, h2.1, h2.2⟩

theorem depXml_error (dep : PomDependency)
    (h : dep.groupId = none ∨ dep.artifactId = none ∨ dep.version = none) :
    ∃ e, depXml dep = Except.error e := by
  cases hg : dep.groupId with
  | none => exact ⟨_, by simp only [depXml, hg, pyKey]; rfl⟩
  | some g =>
    cases ha : dep.artifactId with
    | none => exact ⟨_, by simp only [depXml, hg, ha, pyKey]; rfl⟩
    | some a =>
      cases hv : dep.version with
      | none => exact ⟨_, by simp only [depXml, hg, ha, hv, pyKey]; rfl⟩
      | some v => simp_all

theorem buildSection_error {α : Type} (f : α → Except String String) (l : List α)
    (h : ∃ x ∈ l, ∃ e, f x = Except.error e) :
    ∃ e, buildSection f l = Except.error e := by
  induction l with
  | nil =>
    rcases h with ⟨x, hx, _⟩
    cases hx
  | cons y rest ih =>
    rcases h with ⟨x, hx, e, hfe⟩
    rcases List.mem_cons.mp hx with rfl | hx'
    · exact ⟨e, by simp only [buildSection, hfe]; rfl⟩
    · cases hfy : f y with
      | error e' => exact ⟨e', by simp only [buildSection, hfy]; rfl⟩
      | ok s =>
        obtain ⟨e2, he2⟩ := ih ⟨x, hx', e, hfe⟩
        exact ⟨e2, by simp only [buildSection, hfy, he2]; rfl⟩

/-- Claim C4: a coordinate list in which some coordinate lacks its
`groupId`, `artifactId` or `version` makes `create_temp_pom` fail with the
`KeyError` raised while formatting (the spec's `ValidationError`), and no
file is written to the output directory. -/
theorem create_temp_pom_validation (dependencies : List PomDependency)
    (output_dir : String) (repositories : Option (List PomRepository))
    (h : ∃ d ∈ dependencies,
      d.groupId = none ∨ d.artifactId = none ∨ d.version = none) :
    (∃ e, create_temp_pom dependencies output_dir repositories = Except.error e) ∧
    create_temp_pom_writes dependencies output_dir repositories = [] := by
  have hdep : ∃ e, buildSection depXml dependencies = Except.error e := by
    apply buildSection_error
    rcases h with ⟨d, hd, hmiss⟩
    exact ⟨d, hd, depXml_error d hmiss⟩
  have hmain : ∃ e, create_temp_pom dependencies output_dir repositories
      = Except.error e := by
    cases hrepo : repoSectionOf repositories with
    | error e => exact ⟨e, by simp only [create_temp_pom, hrepo]; rfl⟩
    | ok rs =>
      obtain ⟨e, he⟩ := hdep
      exact ⟨e, by simp only [create_temp_pom, hrepo, he]; rfl⟩
  obtain ⟨e, he⟩ := hmain
  exact ⟨⟨e, he⟩, by simp [create_temp_pom_writes, he]⟩

/-- Witness for C4: one coordinate missing its `artifactId`. -/
theorem create_temp_pom_validation_witness :
    (∃ e, create_temp_pom
        [{ groupId := some "org.example", artifactId := none, version := some "1.0" }]
        "/w" none = Except.error e) ∧
    create_temp_pom_writes
        [{ groupId := some "org.example", artifactId := none, version := some "1.0" }]
        "/w" none = [] :=
  create_temp_pom_validation _ _ _
    ⟨{ groupId := some "org.example", artifactId := none, version := some "1.0" },
      List.mem_singleton_self _, Or.inr (Or.inl rfl)⟩

theorem get_classes_single (jp e : String) (h : strEndsWith e ".class" = true) :
    (get_classes_from_jar ⟨jp, Except.ok [e]⟩).1 = [mkClassInfo jp e] := by
  simp [get_classes_from_jar, indexEntries, h]

theorem findExactScan_single_new (class_names : List String) (jp e s : String)
    (hs : simpleNameOf (qualifiedNameIndexer e) = s)
    (hm : (class_names.map strLower).contains (strLower s) = true) :
    findExactScan (class_names.map strLower) [mkClassInfo jp e] [] =
      [(s, [mkClassInfo jp e])] := by
  simp only [findExactScan, List.foldl_cons, List.foldl_nil, mkClassInfo]
  rw [hs, hm]
  simp [addToResult, mkClassInfo]

theorem findExactScan_single_existing (class_names : List String) (jp e s : String)
    (l : List ClassInfo)
    (hs : simpleNameOf (qualifiedNameIndexer e) = s)
    (hm : (class_names.map strLower).contains (strLower s) = true) :
    findExactScan (class_names.map strLower) [mkClassInfo jp e] [(s, l)] =
      [(s, l ++ [mkClassInfo jp e])] := by
  simp only [findExactScan, List.foldl_cons, List.foldl_nil, mkClassInfo]
  rw [hs, hm]
  simp [addToResult, mkClassInfo]

/-- Claim C6: two archives each holding a `.class` entry with the same
simple (last-segment) class name yield, under `find_exact_class_in_jars`,
both records under one key, in archive-scan order; and the downstream
decompile loop selects the representative as element 0 of that list — the
record from the first-scanned archive. -/
theorem find_exact_duplicate (jp1 jp2 e1 e2 s : String) (class_names : List String)
    (h1 : strEndsWith e1 ".class" = true) (h2 : strEndsWith e2 ".class" = true)
    (hs1 : simpleNameOf (qualifiedNameIndexer e1) = s)
    (hs2 : simpleNameOf (qualifiedNameIndexer e2) = s)
    (hm : (class_names.map strLower).contains (strLower s) = true) :
    find_exact_class_in_jars [⟨jp1, Except.ok [e1]⟩, ⟨jp2, Except.ok [e2]⟩] class_names =
      [(s, [mkClassInfo jp1 e1, mkClassInfo jp2 e2])] ∧
    ∀ javap, decompileFound javap
        (find_exact_class_in_jars [⟨jp1, Except.ok [e1]⟩, ⟨jp2, Except.ok [e2]⟩]
          class_names) =
      [(s, decompile_class (javap jp1 e1))] := by
  have hfe : find_exact_class_in_jars [⟨jp1, Except.ok [e1]⟩, ⟨jp2, Except.ok [e2]⟩]
      class_names = [(s, [mkClassInfo jp1 e1, mkClassInfo jp2 e2])] := by
    simp only [find_exact_class_in_jars, List.foldl_cons, List.foldl_nil]
    rw [get_classes_single jp1 e1 h1, get_classes_single jp2 e2 h2,
      findExactScan_single_new class_names jp1 e1 s hs1 hm,
      findExactScan_single_existing class_names jp2 e2 s [mkClassInfo jp1 e1] hs2 hm]
    simp
  refine ⟨hfe, fun javap => ?_⟩
  rw [hfe]
  simp [decompileFound, mkClassInfo]

/-- Witness for C6: `p/Dup.class` in `/a.jar` and `q/Dup.class` in `/b.jar`,
requested name `Dup`, `javap` succeeding with text `code`. -/
theorem find_exact_duplicate_witness :
    find_exact_class_in_jars
        [⟨"/a.jar", Except.ok ["p/Dup.class"]⟩, ⟨"/b.jar", Except.ok ["q/Dup.class"]⟩]
        ["Dup"] =
      [("Dup", [mkClassInfo "/a.jar" "p/Dup.class", mkClassInfo "/b.jar" "q/Dup.class"])] ∧
    decompileFound (fun _ _ => Except.ok { returncode := 0, stdout := "code", stderr := "" })
        (find_exact_class_in_jars
          [⟨"/a.jar", Except.ok ["p/Dup.class"]⟩, ⟨"/b.jar", Except.ok ["q/Dup.class"]⟩]
          ["Dup"]) =
      [("Dup", decompile_class ((fun _ _ =>
        Except.ok { returncode := 0, stdout := "code", stderr := "" }) "/a.jar" "p/Dup.class"))] := by
  have h := find_exact_duplicate "/a.jar" "/b.jar" "p/Dup.class" "q/Dup.class" "Dup"
    ["Dup"] (by decide) (by decide) (by decide) (by decide) (by decide)
  exact ⟨h.1, h.2 _⟩

/-- Claim C9: `find_exact_class_in_jars` matches requested names
case-insensitively but keys the result by the found class's own simple
name; a requested name differing only in case therefore appears in the
result under a different key, while the summary's case-sensitive
`missing_classes` simultaneously reports the requested name as missing. -/
theorem find_exact_case_insensitive_mismatch (jp e n : String)
    (hcl : strEndsWith e ".class" = true)
    (hneq : simpleNameOf (qualifiedNameIndexer e) ≠ n)
    (hlow : strLower (simpleNameOf (qualifiedNameIndexer e)) = strLower n) :
    find_exact_class_in_jars [⟨jp, Except.ok [e]⟩] [n] =
      [(simpleNameOf (qualifiedNameIndexer e), [mkClassInfo jp e])] ∧
    missingClasses [n] (find_exact_class_in_jars [⟨jp, Except.ok [e]⟩] [n]) = [n] := by
  have hm : (([n].map strLower)).contains
      (strLower (simpleNameOf (qualifiedNameIndexer e))) = true := by
    rw [hlow]
    simp
  have hfe : find_exact_class_in_jars [⟨jp, Except.ok [e]⟩] [n] =
      [(simpleNameOf (qualifiedNameIndexer e), [mkClassInfo jp e])] := by
    simp only [find_exact_class_in_jars, List.foldl_cons, List.foldl_nil]
    rw [get_classes_single jp e hcl, findExactScan_single_new [n] jp e _ rfl hm]
  refine ⟨hfe, ?_⟩
  rw [hfe]
  simp [missingClasses, Ne.symm hneq]

/-- Witness for C9: archive entry `com/example/Foo.class`, requested name
`foo`: found under key `Foo`, yet `foo` is reported missing. -/
theorem find_exact_case_insensitive_mismatch_witness :
    find_exact_class_in_jars [⟨"/a.jar", Except.ok ["com/example/Foo.class"]⟩] ["foo"] =
      [(simpleNameOf (qualifiedNameIndexer "com/example/Foo.class"),
        [mkClassInfo "/a.jar" "com/example/Foo.class"])] ∧
    missingClasses ["foo"]
        (find_exact_class_in_jars [⟨"/a.jar", Except.ok ["com/example/Foo.class"]⟩] ["foo"]) =
      ["foo"] :=
  find_exact_case_insensitive_mismatch "/a.jar" "com/example/Foo.class" "foo"
    (by decide) (by decide) (by decide)

theorem findExactScan_cons (lower : List String) (c : ClassInfo)
    (rest : List ClassInfo) (res : List (String × List ClassInfo)) :
    findExactScan lower (c :: rest) res =
      findExactScan lower rest
        (if lower.contains (strLower (simpleNameOf c.class_name)) then
          addToResult res (simpleNameOf c.class_name) c
        else res) := rfl

theorem addToResult_nonempty (res : List (String × List ClassInfo)) (key : String)
    (cls : ClassInfo) (h : ∀ p ∈ res, p.2 ≠ []) :
    ∀ p ∈ addToResult res key cls, p.2 ≠ [] := by
  intro p hp
  unfold addToResult at hp
  by_cases hc : ((res.map Prod.fst).contains key) = true
  · rw [if_pos hc] at hp
    obtain ⟨q, hq, rfl⟩ := List.mem_map.mp hp
    by_cases hk : (q.1 == key) = true
    · simp [hk]
    · simp only [Bool.not_eq_true] at hk
      simp only [hk, if_false]
      exact h q hq
  · rw [if_neg hc] at hp
    rcases List.mem_append.mp hp with h1 | h2
    · exact h p h1
    · rw [List.mem_singleton] at h2
      subst h2
      simp

theorem findExactScan_nonempty (lower : List String) (classes : List ClassInfo) :
    ∀ res, (∀ p ∈ res, p.2 ≠ []) →
      ∀ p ∈ findExactScan lower classes res, p.2 ≠ [] := by
  induction classes with
  | nil =>
    intro res h
    simpa [findExactScan] using h
  | cons c rest ih =>
    intro res h
    rw [findExactScan_cons]
    apply ih
    by_cases hc : lower.contains (strLower (simpleNameOf c.class_name)) = true
    · rw [if_pos hc]
      exact addToResult_nonempty res _ c h
    · rw [if_neg hc]
      exact h

theorem find_exact_nonempty (jar_files : List Jar) (class_names : List String) :
    ∀ p ∈ find_exact_class_in_jars jar_files class_names, p.2 ≠ [] := by
  suffices h : ∀ res, (∀ p ∈ res, p.2 ≠ []) →
      ∀ p ∈ jar_files.foldl
        (fun result jar_file =>
          findExactScan (class_names.map strLower)
            (get_classes_from_jar jar_file).1 result) res, p.2 ≠ [] by
    intro p hp
    exact h [] (by simp) p hp
  induction jar_files with
  | nil =>
    intro res h
    simpa using h
  | cons j rest ih =>
    intro res h
    simp only [List.foldl_cons]
    exact ih _ (findExactScan_nonempty _ _ res h)

theorem decompileFound_map_fst (javap : String → String → Except String JavapResult)
    (found : List (String × List ClassInfo)) (h : ∀ p ∈ found, p.2 ≠ []) :
    (decompileFound javap found).map Prod.fst = found.map Prod.fst := by
  induction found with
  | nil => rfl
  | cons p rest ih =>
    obtain ⟨name, l⟩ := p
    cases l with
    | nil => exact absurd rfl (h (name, []) (List.mem_cons_self _ _))
    | cons c cs =>
      simp only [decompileFound, List.map_cons]
      rw [ih (fun q hq => h q (List.mem_cons_of_mem _ hq))]

theorem decompileFound_mem (javap : String → String → Except String JavapResult)
    (found : List (String × List ClassInfo)) (name : String) (c : ClassInfo)
    (rest : List ClassInfo) (h : (name, c :: rest) ∈ found) :
    (name, decompile_class (javap c.jar_path c.file_path))
      ∈ decompileFound javap found := by
  induction found with
  | nil => cases h
  | cons p tail ih =>
    rcases List.mem_cons.mp h with heq | hmem
    · rw [← heq]
      simp [decompileFound]
    · obtain ⟨nm, l⟩ := p
      cases l with
      | nil => simpa [decompileFound] using ih hmem
      | cons c2 cs2 =>
        simp only [decompileFound]
        exact List.mem_cons_of_mem _ (ih hmem)

/-- Claim C1: whenever pom synthesis and the resolver subprocess succeed,
`handle_find_and_decompile` succeeds and its `decompiled_classes` carries
one entry per located key; every located representative (element 0 of its
list) is decompiled, a representative whose disassembler exits non-zero
contributing the inline failure string rather than aborting.  Conversely
any resolve-stage failure (pom `KeyError` or non-zero resolver exit)
aborts the whole operation before any decompilation is attempted. -/
theorem find_and_decompile_contract (env : PipelineEnv) :
    ((∃ pc, create_temp_pom env.dependencies env.work_dir env.repositories
        = Except.ok pc) →
      env.mvn.returncode = 0 →
      ∃ res tr, handle_find_and_decompile env = (Except.ok res, tr) ∧
        res.decompiled_classes.map Prod.fst
          = res.analyze.found_classes.map Prod.fst ∧
        (∀ name c rest, (name, c :: rest) ∈ res.analyze.found_classes →
          (name, decompile_class (env.javap c.jar_path c.file_path))
            ∈ res.decompiled_classes) ∧
        (∀ name c rest r, (name, c :: rest) ∈ res.analyze.found_classes →
          env.javap c.jar_path c.file_path = Except.ok r → r.returncode ≠ 0 →
          (name, "反编译失败: " ++ r.stderr) ∈ res.decompiled_classes)) ∧
    (((∃ e, create_temp_pom env.dependencies env.work_dir env.repositories
          = Except.error e) ∨ env.mvn.returncode ≠ 0) →
      ∃ e tr, handle_find_and_decompile env = (Except.error e, tr) ∧
        ∀ name, Stage.decompileCls name ∉ tr) := by
  constructor
  · rintro ⟨pc, hpc⟩ hrc
    have hdl : (download_dependencies env.mvn env.dirFiles).1 =
        Except.ok (env.dirFiles.filter (fun j => strEndsWith j.path ".jar")) := by
      simp [download_dependencies, hrc]
    have hres : handle_find_and_decompile env =
        (Except.ok {
            analyze := {
              found_classes := find_exact_class_in_jars
                (env.dirFiles.filter (fun j => strEndsWith j.path ".jar"))
                env.target_classes
              jar_files := (env.dirFiles.filter
                (fun j => strEndsWith j.path ".jar")).map Jar.path
              work_dir := env.work_dir
              missing_classes := missingClasses env.target_classes
                (find_exact_class_in_jars
                  (env.dirFiles.filter (fun j => strEndsWith j.path ".jar"))
                  env.target_classes) }
            decompiled_classes := decompileFound env.javap
              (find_exact_class_in_jars
                (env.dirFiles.filter (fun j => strEndsWith j.path ".jar"))
                env.target_classes) },
         ([Stage.synthesize, Stage.fetch]
             ++ (env.dirFiles.filter (fun j => strEndsWith j.path ".jar")).map
               (fun j => Stage.indexJar j.path) ++ [Stage.locate])
           ++ (decompileFound env.javap
             (find_exact_class_in_jars
               (env.dirFiles.filter (fun j => strEndsWith j.path ".jar"))
               env.target_classes)).map (fun p => Stage.decompileCls p.1)) := by
      simp only [handle_find_and_decompile, handle_analyze_dependency, hpc, hdl]
    refine ⟨_, _, hres, ?_, ?_, ?_⟩
    · exact decompileFound_map_fst env.javap _ (find_exact_nonempty _ _)
    · intro name c rest hmem
      exact decompileFound_mem env.javap _ name c rest hmem
    · intro name c rest r hmem hj hr
      have hm := decompileFound_mem env.javap
        (find_exact_class_in_jars
          (env.dirFiles.filter (fun j => strEndsWith j.path ".jar"))
          env.target_classes) name c rest hmem
      rw [hj] at hm
      simpa [decompile_class, hr] using hm
  · intro habort
    rcases habort with ⟨e, he⟩ | hrc
    · refine ⟨e, [Stage.synthesize], ?_, ?_⟩
      · simp only [handle_find_and_decompile, handle_analyze_dependency, he]
      · intro name
        simp
    · cases hpom : create_temp_pom env.dependencies env.work_dir env.repositories with
      | error e =>
        refine ⟨e, [Stage.synthesize], ?_, ?_⟩
        · simp only [handle_find_and_decompile, handle_analyze_dependency, hpom]
        · intro name
          simp
      | ok pc =>
        have hdl : (download_dependencies env.mvn env.dirFiles).1 =
            Except.error { msg := "Maven命令执行失败" } := by
          simp [download_dependencies, hrc]
        refine ⟨"Maven命令执行失败", [Stage.synthesize, Stage.fetch], ?_, ?_⟩
        · simp only [handle_find_and_decompile, handle_analyze_dependency, hpom, hdl]
        · intro name
          simp

/-- Witness for C1: a request whose single representative fails to
decompile still succeeds overall (`envOK`), and the same request with the
resolver exiting 1 aborts with no decompile stage in the trace (`envFail`). -/
theorem find_and_decompile_contract_witness :
    (∃ res tr, handle_find_and_decompile envOK = (Except.ok res, tr) ∧
      res.decompiled_classes.map Prod.fst
        = res.analyze.found_classes.map Prod.fst ∧
      (∀ name c rest, (name, c :: rest) ∈ res.analyze.found_classes →
        (name, decompile_class (envOK.javap c.jar_path c.file_path))
          ∈ res.decompiled_classes) ∧
      (∀ name c rest r, (name, c :: rest) ∈ res.analyze.found_classes →
        envOK.javap c.jar_path c.file_path = Except.ok r → r.returncode ≠ 0 →
        (name, "反编译失败: " ++ r.stderr) ∈ res.decompiled_classes)) ∧
    (∃ e tr, handle_find_and_decompile envFail = (Except.error e, tr) ∧
      ∀ name, Stage.decompileCls name ∉ tr) :=
  ⟨(find_and_decompile_contract envOK).1 ⟨_, rfl⟩ rfl,
   (find_and_decompile_contract envFail).2 (Or.inr (by decide))⟩

theorem removeDotClass_cons_of_not_match (c : Char) (cs : List Char)
    (h : startsWithChars ['.', 'c', 'l', 'a', 's', 's'] (c :: cs) = false) :
    removeDotClass (c :: cs) = c :: removeDotClass cs := by
  rw [removeDotClass.eq_def]
  split
  · rename_i rest heq
    exfalso
    injection heq with h1 h2
    subst h1
    subst h2
    simp [startsWithChars] at h
  · rename_i c2 rest2 heq
    injection heq with h1 h2
    subst h1
    subst h2
    rfl
  · rename_i heq
    simp at heq

theorem startsWithChars_take (pat : List Char) :
    ∀ s, startsWithChars pat s = startsWithChars pat (s.take pat.length) := by
  induction pat with
  | nil => intro s; rfl
  | cons a as ih =>
    intro s
    cases s with
    | nil => rfl
    | cons b bs =>
      simp only [startsWithChars, List.length_cons, List.take_succ_cons]
      rw [← ih bs]

theorem removeDotClass_append_pattern : ∀ (A : List Char),
    containsChars ['.', 'c', 'l', 'a', 's', 's'] (A ++ ['.', 'c', 'l', 'a', 's']) = false →
    removeDotClass (A ++ ['.', 'c', 'l', 'a', 's', 's']) = A := by
  intro A
  induction A with
  | nil => intro _; rfl
  | cons c A' ih =>
    intro h
    rw [List.cons_append] at h
    rw [containsChars] at h
    obtain ⟨h1, h2⟩ := Bool.or_eq_false_iff.mp h
    have htake : (c :: (A' ++ ['.', 'c', 'l', 'a', 's', 's'])).take 6
        = (c :: (A' ++ ['.', 'c', 'l', 'a', 's'])).take 6 := by
      show (c :: (A' ++ ['.', 'c', 'l', 'a', 's', 's'])).take (5+1)
        = (c :: (A' ++ ['.', 'c', 'l', 'a', 's'])).take (5+1)
      rw [List.take_succ_cons, List.take_succ_cons]
      congr 1
      rw [List.take_append_eq_append_take, List.take_append_eq_append_take]
      congr 1
      rw [show (['.', 'c', 'l', 'a', 's'] : List Char)
        = (['.', 'c', 'l', 'a', 's', 's'] : List Char).take 5 from rfl, List.take_take]
      congr 1
      omega
    have hnm : startsWithChars ['.', 'c', 'l', 'a', 's', 's']
        (c :: (A' ++ ['.', 'c', 'l', 'a', 's', 's'])) = false := by
      rw [startsWithChars_take]
      show startsWithChars _ ((c :: (A' ++ ['.', 'c', 'l', 'a', 's', 's'])).take 6) = false
      rw [htake]
      rw [show ((c :: (A' ++ ['.', 'c', 'l', 'a', 's'])).take 6)
        = ((c :: (A' ++ ['.', 'c', 'l', 'a', 's'])).take
            (['.', 'c', 'l', 'a', 's', 's'] : List Char).length) from rfl]
      rw [← startsWithChars_take]
      exact h1
    rw [List.cons_append, removeDotClass_cons_of_not_match c _ hnm, ih h2]

/-- Counterexample to claim C10 as stated: in the entry path
`a/class/Foo.class` the pattern `.class` occurs only as the terminal
suffix (the path shortened by its last character does not contain it), yet
the indexer derives `a.class.Foo` while the decompile handlers derive
`a.Foo` — the `/class/` segment becomes `.class` after the slash-to-dot
replacement and is deleted. -/
theorem qualifiedName_counterexample :
    strEndsWith "a/class/Foo.class" ".class" = true ∧
    strContains ⟨"a/class/Foo.class".data.take ("a/class/Foo.class".data.length - 1)⟩
      ".class" = false ∧
    qualifiedNameIndexer "a/class/Foo.class"
      ≠ qualifiedNameDecompiler "a/class/Foo.class" :=
  ⟨by decide, by decide, by decide⟩

/-- Claim C10, amended: the two qualified-name derivations agree on every
entry path ending in `.class` whose slash-to-dot conversion contains
`.class` only as the terminal suffix; and they disagree on some entry
path containing `.class` elsewhere. -/
theorem qualifiedName_derivations :
    (∀ p : String, strEndsWith p ".class" = true →
      strContains ⟨(slashToDot p.data).take (p.data.length - 1)⟩ ".class" = false →
      qualifiedNameIndexer p = qualifiedNameDecompiler p) ∧
    qualifiedNameIndexer "com/a.class/Foo.class"
      ≠ qualifiedNameDecompiler "com/a.class/Foo.class" := by
  constructor
  · intro p h1 h2
    simp only [strEndsWith, Bool.and_eq_true, beq_iff_eq, decide_eq_true_eq] at h1
    obtain ⟨hdrop, hlen⟩ := h1
    rw [show (['.', 'c', 'l', 'a', 's', 's'] : List Char).length = 6 from rfl] at hdrop hlen
    have hqL : p.data.take (p.data.length - 6) ++ ['.', 'c', 'l', 'a', 's', 's']
        = p.data := by
      conv_rhs => rw [← List.take_append_drop (p.data.length - 6) p.data]
      rw [hdrop]
    have hLdecomp : slashToDot p.data
        = slashToDot (p.data.take (p.data.length - 6))
            ++ ['.', 'c', 'l', 'a', 's', 's'] := by
      conv_lhs => rw [← hqL]
      simp only [slashToDot, List.map_append]
      congr 1
    have hlenA : (slashToDot (p.data.take (p.data.length - 6))).length
        = p.data.length - 6 := by
      simp only [slashToDot, List.length_map, List.length_take]
      omega
    have htake : (slashToDot (p.data.take (p.data.length - 6))
          ++ ['.', 'c', 'l', 'a', 's', 's']).take (p.data.length - 1)
        = slashToDot (p.data.take (p.data.length - 6)) ++ ['.', 'c', 'l', 'a', 's'] := by
      rw [List.take_append_eq_append_take]
      rw [List.take_of_length_le (by omega :
        (slashToDot (p.data.take (p.data.length - 6))).length ≤ p.data.length - 1)]
      congr 1
      rw [hlenA]
      rw [show p.data.length - 1 - (p.data.length - 6) = 5 by omega]
      rfl
    have hA : containsChars ['.', 'c', 'l', 'a', 's', 's']
        (slashToDot (p.data.take (p.data.length - 6))
          ++ ['.', 'c', 'l', 'a', 's']) = false := by
      have h2' : containsChars ['.', 'c', 'l', 'a', 's', 's']
          ((slashToDot p.data).take (p.data.length - 1)) = false := h2
      rw [hLdecomp, htake] at h2'
      exact h2'
    show String.mk (slashToDot (p.data.take (p.data.length - 6)))
      = String.mk (removeDotClass (slashToDot p.data))
    apply congrArg String.mk
    rw [hLdecomp, removeDotClass_append_pattern _ hA]
  · decide

/-- Witness for C10's amended theorem: the derivations agree at
`org/example/Foo.class` and disagree at `com/a.class/Foo.class`. -/
theorem qualifiedName_derivations_witness :
    qualifiedNameIndexer "org/example/Foo.class"
      = qualifiedNameDecompiler "org/example/Foo.class" ∧
    qualifiedNameIndexer "com/a.class/Foo.class"
      ≠ qualifiedNameDecompiler "com/a.class/Foo.class" :=
  ⟨qualifiedName_derivations.1 "org/example/Foo.class" (by decide) (by decide),
   qualifiedName_derivations.2⟩
